import Mathlib

/-!
Shallow embedding of `app/schemas/user_schemas.py` (user-management
validation schemas): field validators, the `UserUpdate` cross-field
pre-pass, the role-transition policy, and the response shapes.

Modelling conventions:
* Python strings are Lean `String`s (lists of characters); the embedding is
  faithful on ASCII text, and per-character classifiers (`isupper`,
  `isalnum`, `lower`, ...) are translated to their ASCII counterparts.
* Python functions that `raise ValueError(msg)` become functions into
  `Except String α`, carrying the exact message.
* `re.match` with an `^...$` pattern is translated to a full-string match,
  plus Python's quirk that `$` also matches just before a single trailing
  newline.
-/

namespace UserSchemas

/-- Python `UserRole(str, Enum)` with members ANONYMOUS, AUTHENTICATED, MANAGER, ADMIN. -/
inductive UserRole where
  | ANONYMOUS
  | AUTHENTICATED
  | MANAGER
  | ADMIN
deriving DecidableEq, Repr, Fintype

/-- Python `.value` of each `UserRole` member (members are defined as their own names). -/
def UserRole.value : UserRole → String
  | .ANONYMOUS => "ANONYMOUS"
  | .AUTHENTICATED => "AUTHENTICATED"
  | .MANAGER => "MANAGER"
  | .ADMIN => "ADMIN"

/-- The `role_hierarchy` dict built inside `validate_role_transition`. -/
def role_hierarchy : UserRole → List UserRole
  | .ANONYMOUS => [.AUTHENTICATED]
  | .AUTHENTICATED => [.MANAGER]
  | .MANAGER => [.ADMIN]
  | .ADMIN => []

/-- Python `validate_role_transition(current_role, new_role)`:
`new_role in role_hierarchy.get(current_role, [])`. -/
def validate_role_transition (current_role new_role : UserRole) : Bool :=
  (role_hierarchy current_role).contains new_role

/-! ### Character-level helpers (ASCII model of Python's str methods) -/

/-- ASCII part of Python's regex `\s` / `str.strip()` whitespace. -/
def isPySpace (c : Char) : Bool :=
  c = ' ' || c = '\t' || c = '\n' || c = '\r' || c = '\x0b' || c = '\x0c'

/-- ASCII model of Python `str.lower()` on one character. -/
def pyLowerChar (c : Char) : Char :=
  match c with
  | 'A' => 'a' | 'B' => 'b' | 'C' => 'c' | 'D' => 'd' | 'E' => 'e' | 'F' => 'f'
  | 'G' => 'g' | 'H' => 'h' | 'I' => 'i' | 'J' => 'j' | 'K' => 'k' | 'L' => 'l'
  | 'M' => 'm' | 'N' => 'n' | 'O' => 'o' | 'P' => 'p' | 'Q' => 'q' | 'R' => 'r'
  | 'S' => 's' | 'T' => 't' | 'U' => 'u' | 'V' => 'v' | 'W' => 'w' | 'X' => 'x'
  | 'Y' => 'y' | 'Z' => 'z'
  | c => c

/-- Python `str.lower()` (ASCII model). -/
def pyLower (s : String) : String := ⟨s.data.map pyLowerChar⟩

/-- Python `str.strip()` (ASCII whitespace model). -/
def pyStrip (s : String) : String :=
  ⟨((s.data.dropWhile isPySpace).reverse.dropWhile isPySpace).reverse⟩

/-- Python's `^pat$` via `re.match`: the pattern must cover the whole
string, except that `$` also matches just before one trailing newline. -/
def dollarAnchored (core : List Char → Bool) (s : List Char) : Bool :=
  core s ||
    (match s.getLast? with
     | some c => c = '\n' && core s.dropLast
     | none => false)

/-! ### The email regex `^[a-zA-Z0-9._%+-]+@[a-zA-Z0-9.-]+\.[a-zA-Z]{2,}$` -/

/-- Character class `[a-zA-Z0-9._%+-]` (the local part). -/
def isLocalChar (c : Char) : Bool :=
  c.isAlpha || c.isDigit || c = '.' || c = '_' || c = '%' || c = '+' || c = '-'

/-- Character class `[a-zA-Z0-9.-]` (the domain labels). -/
def isDomainChar (c : Char) : Bool :=
  c.isAlpha || c.isDigit || c = '.' || c = '-'

/-- Split a character list at the first occurrence of `sep`, or `none`. -/
def splitAtChar (sep : Char) : List Char → Option (List Char × List Char)
  | [] => none
  | a :: rest =>
    if a = sep then some ([], rest)
    else
      match splitAtChar sep rest with
      | some (l, r) => some (a :: l, r)
      | none => none

/-- Python `[a-zA-Z0-9.-]+\.[a-zA-Z]{2,}`: the part after the `@`.  A matching
split must put every letter after the final dot into the TLD, so the TLD
is exactly the maximal alphabetic suffix. -/
def domainTldOk (r : List Char) : Bool :=
  decide (2 ≤ (r.reverse.takeWhile Char.isAlpha).length) &&
    (match r.reverse.dropWhile Char.isAlpha with
     | '.' :: drev => !drev.isEmpty && drev.all isDomainChar
     | _ => false)

/-- The whole email pattern body (without the `$`-newline quirk). -/
def emailCore (s : List Char) : Bool :=
  match splitAtChar '@' s with
  | some (localPart, rest) =>
    !localPart.isEmpty && localPart.all isLocalChar && domainTldOk rest
  | none => false

/-- Python `re.match(email_regex, email)` from `validate_email_format`. -/
def emailRegexMatch (email : String) : Bool :=
  dollarAnchored emailCore email.data

/-- Python `'..' in email` (substring test), as a scan over adjacent pairs. -/
def hasDoubleDot : List Char → Bool
  | a :: b :: rest => (a = '.' && b = '.') || hasDoubleDot (b :: rest)
  | _ => false

/-- Python `email.startswith('.')`. -/
def headIsDot : List Char → Bool
  | c :: _ => c = '.'
  | [] => false

/-- Python `email.endswith('.')`. -/
def lastIsDot (l : List Char) : Bool :=
  match l.getLast? with
  | some c => c = '.'
  | none => false

/-- Python `validate_email_format(email)`: empty check, length ≤ 255, regex
match, dot-placement checks, then normalization to lower case. -/
def validate_email_format (email : String) : Except String String :=
  if email = "" then .error "Email is required"
  else if email.length > 255 then .error "Email must be at most 255 characters long"
  else if !emailRegexMatch email then .error "Invalid email format"
  else if hasDoubleDot email.data || headIsDot email.data || lastIsDot email.data then
    .error "Invalid email format: consecutive dots not allowed"
  else .ok (pyLower email)

/-! ### `validate_password` -/

/-- The fixed special-character set of `validate_password`. -/
def specialChars : List Char :=
  ['!', '@', '#', '$', '%', '^', '&', '*', '(', ')', ',', '.', '?', '"',
   ':', '{', '}', '|', '<', '>']

/-- Python `validate_password(password)`: length bounds then the four required
character classes, in order, each with its own message. -/
def validate_password (password : String) : Except String String :=
  if password.length < 8 then
    .error "Password must be at least 8 characters long"
  else if password.length > 100 then
    .error "Password must be at most 100 characters long"
  else if !(password.data.any Char.isUpper) then
    .error "Password must contain at least one uppercase letter"
  else if !(password.data.any Char.isLower) then
    .error "Password must contain at least one lowercase letter"
  else if !(password.data.any Char.isDigit) then
    .error "Password must contain at least one number"
  else if !(password.data.any (fun c => specialChars.contains c)) then
    .error "Password must contain at least one special character"
  else .ok password

/-! ### `validate_bio_length` -/

/-- Python `validate_bio_length(bio)`: `None` passes through; otherwise length
≤ 500 then strip surrounding whitespace. -/
def validate_bio_length (bio : Option String) : Except String (Option String) :=
  match bio with
  | none => .ok none
  | some b =>
    if b.length > 500 then .error "Bio must be at most 500 characters long"
    else .ok (some (pyStrip b))

/-! ### The URL regex `^https?:\/\/[^\s/$.?#].[^\s]*$` -/

/-- Character class `[^\s/$.?#]` (first character after the scheme). -/
def isHostHeadChar (c : Char) : Bool :=
  !isPySpace c && c ≠ '/' && c ≠ '$' && c ≠ '.' && c ≠ '?' && c ≠ '#'

/-- Python `[^\s/$.?#].[^\s]*`: the part after `https?://` (`.` matches any
character except a newline). -/
def urlTail (r : List Char) : Bool :=
  match r with
  | c1 :: c2 :: tail =>
    isHostHeadChar c1 && c2 ≠ '\n' && tail.all (fun c => !isPySpace c)
  | _ => false

/-- The whole URL pattern body: scheme `https?://` then `urlTail`. -/
def urlCore (s : List Char) : Bool :=
  match s with
  | 'h' :: 't' :: 't' :: 'p' :: rest =>
    (match rest with
     | 's' :: ':' :: '/' :: '/' :: r => urlTail r
     | ':' :: '/' :: '/' :: r => urlTail r
     | _ => false)
  | _ => false

/-- Python `re.match(url_regex, url)` from the URL validators. -/
def urlRegexMatch (url : String) : Bool :=
  dollarAnchored urlCore url.data

/-- Python `url.lower().endswith(('.jpg', '.jpeg', '.png', '.gif'))`. -/
def picExtensionOk (url : String) : Bool :=
  ".jpg".data.isSuffixOf (pyLower url).data ||
    ".jpeg".data.isSuffixOf (pyLower url).data ||
    ".png".data.isSuffixOf (pyLower url).data ||
    ".gif".data.isSuffixOf (pyLower url).data

/-- Python `validate_profile_picture_url(url)`: `None` passes through; otherwise
the URL regex must match and the (case-insensitive) extension must be an
image extension. -/
def validate_profile_picture_url (url : Option String) : Except String (Option String) :=
  match url with
  | none => .ok none
  | some u =>
    if !urlRegexMatch u then .error "Invalid URL format"
    else if picExtensionOk u then .ok (some u)
    else .error "Profile picture URL must end with .jpg, .jpeg, .png, or .gif"

/-! ### `UserBase.validate_nickname` -/

/-- Python `'--' in v or '__' in v`: a scan over adjacent pairs. -/
def hasConsecSep : List Char → Bool
  | a :: b :: rest => (a = '-' && b = '-') || (a = '_' && b = '_') || hasConsecSep (b :: rest)
  | _ => false

/-- Python `v[0].isalnum()` on the character list (false on `[]`, which is
unreachable after the length checks). -/
def firstIsAlnum : List Char → Bool
  | c :: _ => c.isAlphanum
  | [] => false

/-- The nickname pattern body `[a-zA-Z0-9][a-zA-Z0-9_-]*`. -/
def nicknameCore : List Char → Bool
  | c :: rest =>
    (c.isAlpha || c.isDigit) &&
      rest.all (fun a => a.isAlpha || a.isDigit || a = '_' || a = '-')
  | [] => false

/-- Python `re.match(r'^[a-zA-Z0-9][a-zA-Z0-9_-]*$', v)`. -/
def nicknameRegexMatch (v : String) : Bool :=
  dollarAnchored nicknameCore v.data

/-- Python `UserBase.validate_nickname(v)`: `None` passes through; otherwise the
five checks in source order, each with its own message. -/
def UserBase.validate_nickname (v : Option String) : Except String (Option String) :=
  match v with
  | none => .ok none
  | some s =>
    if s.length < 3 then .error "Nickname must be at least 3 characters long"
    else if s.length > 30 then .error "Nickname must be at most 30 characters long"
    else if !firstIsAlnum s.data then .error "Nickname must start with a letter or number"
    else if hasConsecSep s.data then
      .error "Nickname cannot contain consecutive hyphens or underscores"
    else if !nicknameRegexMatch s then
      .error "Nickname can only contain letters, numbers, underscores, and hyphens"
    else .ok (some s)

/-! ### `UserUpdate.check_update_fields` (the `pre=True` root validator)

The raw incoming payload is a Python dict of field name → submitted value.
The submitted values the validator inspects are strings or `None`; we model
them with `PyVal` and the dict as an association list. -/

/-- A raw payload value: `None` or a string. -/
inductive PyVal where
  | none
  | str (s : String)
deriving DecidableEq, Repr

/-- Python truthiness of a raw payload value (`None` and `""` are falsy). -/
def PyVal.truthy : PyVal → Bool
  | .none => false
  | .str s => s ≠ ""

/-- The raw payload: a dict of field name → submitted value. -/
abbrev Payload := List (String × PyVal)

/-- Python `k in values` / `values[k]`: look up a key. -/
def getVal (values : Payload) (k : String) : Option PyVal :=
  (values.find? (fun p => p.1 = k)).map (fun p => p.2)

/-- Python `values[k] = v`: replace the value at an existing key. -/
def setVal (values : Payload) (k : String) (v : PyVal) : Payload :=
  values.map (fun p => if p.1 = k then (p.1, v) else p)

/-- Python `[role.value for role in UserRole]`. -/
def roleValues : List String :=
  ["ANONYMOUS", "AUTHENTICATED", "MANAGER", "ADMIN"]

/-- Python `if 'email' in values and values['email']: values['email'] =
validate_email_format(values['email'])`. -/
def emailStep (values : Payload) : Except String Payload :=
  match getVal values "email" with
  | some (.str s) =>
    if s ≠ "" then (validate_email_format s).map (fun r => setVal values "email" (.str r))
    else .ok values
  | _ => .ok values

/-- Python `if 'profile_picture_url' in values and values['profile_picture_url']:
validate_profile_picture_url(...)` (result discarded). -/
def picStep (values : Payload) : Except String Payload :=
  match getVal values "profile_picture_url" with
  | some (.str s) =>
    if s ≠ "" then (validate_profile_picture_url (some s)).map (fun _ => values)
    else .ok values
  | _ => .ok values

/-- Python `if 'bio' in values and values['bio']: validate_bio_length(...)`
(result discarded). -/
def bioStep (values : Payload) : Except String Payload :=
  match getVal values "bio" with
  | some (.str s) =>
    if s ≠ "" then (validate_bio_length (some s)).map (fun _ => values)
    else .ok values
  | _ => .ok values

/-- Python `if 'role' in values and values['role']: ...` role must be one of the
four defined role names. -/
def roleStep (values : Payload) : Except String Payload :=
  match getVal values "role" with
  | some (.str s) =>
    if s ≠ "" then
      if roleValues.contains s then .ok values
      else .error "Invalid role. Must be one of: ANONYMOUS, AUTHENTICATED, MANAGER, ADMIN"
    else .ok values
  | _ => .ok values

/-- Python `UserUpdate.check_update_fields(values)`: the at-least-one-field check
on the raw dict, then the email / profile-picture / bio / role pre-checks
in source order, returning the (email-normalized) payload. -/
def check_update_fields (values : Payload) : Except String Payload :=
  if !(values.any fun p => p.2.truthy) then
    .error "At least one field must be provided for update"
  else do
    let v1 ← emailStep values
    let v2 ← picStep v1
    let v3 ← bioStep v2
    roleStep v3

/-- The declared fields of `UserUpdate`. -/
def userUpdateFields : List String :=
  ["email", "nickname", "first_name", "last_name", "bio",
   "profile_picture_url", "linkedin_profile_url", "github_profile_url", "role"]

/-! ### Response shapes -/

/-- Python `UserResponse`: the externally-visible projection of a user record
(`id` is an identifier; no password field). -/
structure UserResponse where
  id : Nat
  email : String
  nickname : Option String
  first_name : Option String
  last_name : Option String
  bio : Option String
  profile_picture_url : Option String
  linkedin_profile_url : Option String
  github_profile_url : Option String
  role : UserRole
  is_professional : Option Bool
deriving DecidableEq, Repr

/-- Python `UserListResponse`: items plus pagination metadata (`total`, `page`,
`size` are Python ints). -/
structure UserListResponse where
  items : List UserResponse
  total : Int
  page : Int
  size : Int
deriving DecidableEq, Repr

/-- An example `UserResponse` value (used to populate item lists). -/
def sampleUser : UserResponse :=
  ⟨0, "john.doe@example.com", none, none, none, none, none, none, none,
    .AUTHENTICATED, some false⟩

/-- Constructing a `UserListResponse` from typed field values: the class
declares its four fields with no validators and no constraints, so
construction always succeeds. -/
def mkUserListResponse (items : List UserResponse) (total page size : Int) :
    Except String UserListResponse :=
  .ok ⟨items, total, page, size⟩

end UserSchemas

namespace UserSchemas

/-! ### Helper lemmas about the regex matchers and normalizers -/

theorem takeWhile_append_of_all {p : Char → Bool} {xs ys : List Char} {y : Char}
    (h : ∀ a ∈ xs, p a = true) (hy : p y = false) :
    (xs ++ y :: ys).takeWhile p = xs := by
  induction xs with
  | nil => simp [List.takeWhile, hy]
  | cons a l ih =>
    simp only [List.cons_append, List.takeWhile_cons]
    rw [h a (by simp)]
    simp only [if_true]
    rw [ih (fun b hb => h b (by simp [hb]))]

theorem dropWhile_append_of_all {p : Char → Bool} {xs ys : List Char} {y : Char}
    (h : ∀ a ∈ xs, p a = true) (hy : p y = false) :
    (xs ++ y :: ys).dropWhile p = y :: ys := by
  induction xs with
  | nil => simp [List.dropWhile, hy]
  | cons a l ih =>
    simp only [List.cons_append, List.dropWhile_cons]
    rw [h a (by simp)]
    simpa using ih (fun b hb => h b (by simp [hb]))

theorem splitAtChar_eq_some {sep : Char} {s l r : List Char}
    (h : splitAtChar sep s = some (l, r)) : s = l ++ sep :: r ∧ sep ∉ l := by
  induction s generalizing l r with
  | nil => simp [splitAtChar] at h
  | cons a rest ih =>
    rw [splitAtChar] at h
    by_cases ha : a = sep
    · rw [if_pos ha] at h
      simp only [Option.some.injEq, Prod.mk.injEq] at h
      obtain ⟨hl, hr⟩ := h
      subst ha
      refine ⟨by rw [← hl, ← hr]; rfl, by rw [← hl]; simp⟩
    · rw [if_neg ha] at h
      rcases hrec : splitAtChar sep rest with _ | ⟨⟨l2, r2⟩⟩ <;> rw [hrec] at h
      · simp at h
      · simp only [Option.some.injEq, Prod.mk.injEq] at h
        obtain ⟨hl, hr⟩ := h
        obtain ⟨hs, hns⟩ := ih (by rw [hrec, hr])
        refine ⟨by rw [← hl, hs]; rfl, ?_⟩
        rw [← hl]
        intro hmem
        rcases List.mem_cons.mp hmem with hc | hc
        · exact ha hc.symm
        · exact hns hc

theorem splitAtChar_of_append {sep : Char} {l r : List Char} (h : sep ∉ l) :
    splitAtChar sep (l ++ sep :: r) = some (l, r) := by
  induction l with
  | nil => simp [splitAtChar]
  | cons a rest ih =>
    rw [List.cons_append, splitAtChar]
    have ha : ¬a = sep := fun hc => h (hc ▸ List.mem_cons_self a rest)
    rw [if_neg ha, ih (fun hc => h (List.mem_cons_of_mem a hc))]

theorem domainTldOk_iff {r : List Char} :
    domainTldOk r = true ↔
      ∃ d t, r = d ++ '.' :: t ∧ d ≠ [] ∧ d.all isDomainChar = true ∧
        t.all Char.isAlpha = true ∧ 2 ≤ t.length := by
  constructor
  · intro h
    unfold domainTldOk at h
    simp only [Bool.and_eq_true, decide_eq_true_eq] at h
    obtain ⟨hlen, hrest⟩ := h
    split at hrest
    · rename_i drev heq
      simp only [Bool.and_eq_true] at hrest
      have hsplit := List.takeWhile_append_dropWhile Char.isAlpha r.reverse
      rw [heq] at hsplit
      refine ⟨drev.reverse, (r.reverse.takeWhile Char.isAlpha).reverse, ?_, ?_, ?_, ?_, ?_⟩
      · have hrr : r.reverse.reverse =
            (r.reverse.takeWhile Char.isAlpha ++ '.' :: drev).reverse := by
          rw [hsplit]
        simpa using hrr
      · intro hnil
        rw [List.reverse_eq_nil_iff] at hnil
        rw [hnil] at hrest
        simp at hrest
      · rw [List.all_reverse]
        exact hrest.2
      · rw [List.all_reverse, List.all_eq_true]
        exact fun a ha => List.mem_takeWhile_imp ha
      · simpa using hlen
    · simp at hrest
  · rintro ⟨d, t, hr, hd, hda, hta, htl⟩
    subst hr
    have hok : ∀ a ∈ t.reverse, Char.isAlpha a = true :=
      fun a ha => List.all_eq_true.mp hta a (List.mem_reverse.mp ha)
    have hrev : (d ++ '.' :: t).reverse = t.reverse ++ '.' :: d.reverse := by
      simp
    have htake : ((d ++ '.' :: t).reverse).takeWhile Char.isAlpha = t.reverse := by
      rw [hrev]
      exact takeWhile_append_of_all hok (by decide)
    have hdrop : ((d ++ '.' :: t).reverse).dropWhile Char.isAlpha = '.' :: d.reverse := by
      rw [hrev]
      exact dropWhile_append_of_all hok (by decide)
    unfold domainTldOk
    rw [htake, hdrop]
    simp [hd, htl, List.all_reverse, hda]

theorem emailCore_iff {s : List Char} :
    emailCore s = true ↔
      ∃ l d t, s = l ++ '@' :: (d ++ '.' :: t) ∧ l ≠ [] ∧ l.all isLocalChar = true ∧
        d ≠ [] ∧ d.all isDomainChar = true ∧ t.all Char.isAlpha = true ∧ 2 ≤ t.length := by
  constructor
  · intro h
    unfold emailCore at h
    split at h
    · rename_i lp rest heq
      simp only [Bool.and_eq_true] at h
      obtain ⟨⟨hlp, hla⟩, hdom⟩ := h
      obtain ⟨d, t, hrest, hd, hda, hta, htl⟩ := domainTldOk_iff.mp hdom
      obtain ⟨hs, _⟩ := splitAtChar_eq_some heq
      refine ⟨lp, d, t, by rw [hs, hrest], ?_, hla, hd, hda, hta, htl⟩
      intro hnil
      rw [hnil] at hlp
      simp at hlp
    · simp at h
  · rintro ⟨l, d, t, hs, hl, hla, hd, hda, hta, htl⟩
    subst hs
    have hat : '@' ∉ l := by
      intro hmem
      have := (List.all_eq_true.mp hla) '@' hmem
      simp [isLocalChar] at this
    unfold emailCore
    rw [splitAtChar_of_append hat]
    simp only [Bool.and_eq_true]
    refine ⟨⟨?_, hla⟩, domainTldOk_iff.mpr ⟨d, t, rfl, hd, hda, hta, htl⟩⟩
    simp [hl]

theorem pyLowerChar_isLocal {c : Char} (h : isLocalChar c = true) :
    isLocalChar (pyLowerChar c) = true := by
  unfold pyLowerChar
  split <;> first | decide | exact h

theorem pyLowerChar_isDomain {c : Char} (h : isDomainChar c = true) :
    isDomainChar (pyLowerChar c) = true := by
  unfold pyLowerChar
  split <;> first | decide | exact h

theorem pyLowerChar_isAlpha {c : Char} (h : Char.isAlpha c = true) :
    Char.isAlpha (pyLowerChar c) = true := by
  unfold pyLowerChar
  split <;> first | decide | exact h

theorem pyLowerChar_eq_dot {c : Char} : pyLowerChar c = '.' ↔ c = '.' := by
  unfold pyLowerChar
  split <;> simp_all

theorem pyLowerChar_of_not_upper {c : Char} (h : c.isUpper = false) :
    pyLowerChar c = c := by
  unfold pyLowerChar
  split <;> first | rfl | exact absurd h (by decide)

theorem pyLowerChar_not_upper (c : Char) : (pyLowerChar c).isUpper = false := by
  unfold pyLowerChar
  split
  all_goals try decide
  rename_i h1 h2 h3 h4 h5 h6 h7 h8 h9 h10 h11 h12 h13 h14 h15 h16 h17 h18 h19 h20 h21 h22 h23 h24 h25 h26
  by_contra hcon
  rw [Bool.not_eq_false] at hcon
  simp [Char.isUpper] at hcon
  obtain ⟨hlo, hhi⟩ := hcon
  have hlo2 : 65 ≤ c.toNat := hlo
  have hhi2 : c.toNat ≤ 90 := hhi
  have e1 : c.toNat ≠ 65 := fun hx => h1 (Char.ext (UInt32.ext hx))
  have e2 : c.toNat ≠ 66 := fun hx => h2 (Char.ext (UInt32.ext hx))
  have e3 : c.toNat ≠ 67 := fun hx => h3 (Char.ext (UInt32.ext hx))
  have e4 : c.toNat ≠ 68 := fun hx => h4 (Char.ext (UInt32.ext hx))
  have e5 : c.toNat ≠ 69 := fun hx => h5 (Char.ext (UInt32.ext hx))
  have e6 : c.toNat ≠ 70 := fun hx => h6 (Char.ext (UInt32.ext hx))
  have e7 : c.toNat ≠ 71 := fun hx => h7 (Char.ext (UInt32.ext hx))
  have e8 : c.toNat ≠ 72 := fun hx => h8 (Char.ext (UInt32.ext hx))
  have e9 : c.toNat ≠ 73 := fun hx => h9 (Char.ext (UInt32.ext hx))
  have e10 : c.toNat ≠ 74 := fun hx => h10 (Char.ext (UInt32.ext hx))
  have e11 : c.toNat ≠ 75 := fun hx => h11 (Char.ext (UInt32.ext hx))
  have e12 : c.toNat ≠ 76 := fun hx => h12 (Char.ext (UInt32.ext hx))
  have e13 : c.toNat ≠ 77 := fun hx => h13 (Char.ext (UInt32.ext hx))
  have e14 : c.toNat ≠ 78 := fun hx => h14 (Char.ext (UInt32.ext hx))
  have e15 : c.toNat ≠ 79 := fun hx => h15 (Char.ext (UInt32.ext hx))
  have e16 : c.toNat ≠ 80 := fun hx => h16 (Char.ext (UInt32.ext hx))
  have e17 : c.toNat ≠ 81 := fun hx => h17 (Char.ext (UInt32.ext hx))
  have e18 : c.toNat ≠ 82 := fun hx => h18 (Char.ext (UInt32.ext hx))
  have e19 : c.toNat ≠ 83 := fun hx => h19 (Char.ext (UInt32.ext hx))
  have e20 : c.toNat ≠ 84 := fun hx => h20 (Char.ext (UInt32.ext hx))
  have e21 : c.toNat ≠ 85 := fun hx => h21 (Char.ext (UInt32.ext hx))
  have e22 : c.toNat ≠ 86 := fun hx => h22 (Char.ext (UInt32.ext hx))
  have e23 : c.toNat ≠ 87 := fun hx => h23 (Char.ext (UInt32.ext hx))
  have e24 : c.toNat ≠ 88 := fun hx => h24 (Char.ext (UInt32.ext hx))
  have e25 : c.toNat ≠ 89 := fun hx => h25 (Char.ext (UInt32.ext hx))
  have e26 : c.toNat ≠ 90 := fun hx => h26 (Char.ext (UInt32.ext hx))
  omega

theorem pyLowerChar_idem (c : Char) : pyLowerChar (pyLowerChar c) = pyLowerChar c :=
  pyLowerChar_of_not_upper (pyLowerChar_not_upper c)

theorem pyLower_idem (s : String) : pyLower (pyLower s) = pyLower s := by
  unfold pyLower
  apply congrArg String.mk
  rw [List.map_map]
  exact List.map_eq_map_iff.mpr (fun a _ => pyLowerChar_idem a)

theorem emailCore_map_pyLower {s : List Char} (h : emailCore s = true) :
    emailCore (s.map pyLowerChar) = true := by
  rw [emailCore_iff] at h ⊢
  obtain ⟨l, d, t, hs, hl, hla, hd, hda, hta, htl⟩ := h
  have hat : pyLowerChar '@' = '@' := by decide
  have hdot : pyLowerChar '.' = '.' := by decide
  refine ⟨l.map pyLowerChar, d.map pyLowerChar, t.map pyLowerChar, ?_, ?_, ?_, ?_, ?_, ?_, ?_⟩
  · subst hs
    simp [List.map_append, hat, hdot]
  · simpa using hl
  · rw [List.all_map, List.all_eq_true]
    exact fun a ha => pyLowerChar_isLocal ((List.all_eq_true.mp hla) a ha)
  · simpa using hd
  · rw [List.all_map, List.all_eq_true]
    exact fun a ha => pyLowerChar_isDomain ((List.all_eq_true.mp hda) a ha)
  · rw [List.all_map, List.all_eq_true]
    exact fun a ha => pyLowerChar_isAlpha ((List.all_eq_true.mp hta) a ha)
  · simpa using htl

theorem emailRegexMatch_pyLower {e : String} (h : emailRegexMatch e = true) :
    emailRegexMatch (pyLower e) = true := by
  unfold emailRegexMatch dollarAnchored at h ⊢
  have hdata : (pyLower e).data = e.data.map pyLowerChar := rfl
  rw [Bool.or_eq_true] at h
  rw [hdata, Bool.or_eq_true]
  rcases h with hcore | hnl
  · exact Or.inl (emailCore_map_pyLower hcore)
  · right
    rw [List.getLast?_map]
    rcases hlast : e.data.getLast? with _ | c <;> rw [hlast] at hnl
    · simp at hnl
    · simp only [Bool.and_eq_true, decide_eq_true_eq] at hnl
      obtain ⟨hc, hcore⟩ := hnl
      subst hc
      have hnl2 : pyLowerChar '\n' = '\n' := by decide
      simp [Option.map_some', hnl2, ← List.map_dropLast, emailCore_map_pyLower hcore]

theorem hasDoubleDot_map {l : List Char} (h : hasDoubleDot l = false) :
    hasDoubleDot (l.map pyLowerChar) = false := by
  induction l with
  | nil => simp [hasDoubleDot]
  | cons a rest ih =>
    cases rest with
    | nil => simp [hasDoubleDot]
    | cons b rest2 =>
      rw [hasDoubleDot, Bool.or_eq_false_iff] at h
      obtain ⟨hab, htail⟩ := h
      simp only [List.map_cons]
      rw [hasDoubleDot, Bool.or_eq_false_iff]
      constructor
      · rw [Bool.and_eq_false_iff] at hab ⊢
        rcases hab with ha | hb
        · exact Or.inl (by simpa [pyLowerChar_eq_dot] using ha)
        · exact Or.inr (by simpa [pyLowerChar_eq_dot] using hb)
      · have := ih htail
        simpa using this

theorem headIsDot_map {l : List Char} (h : headIsDot l = false) :
    headIsDot (l.map pyLowerChar) = false := by
  cases l with
  | nil => simp [headIsDot]
  | cons c rest =>
    simp only [headIsDot, List.map_cons] at h ⊢
    simpa [pyLowerChar_eq_dot] using h

theorem lastIsDot_map {l : List Char} (h : lastIsDot l = false) :
    lastIsDot (l.map pyLowerChar) = false := by
  unfold lastIsDot at h ⊢
  rw [List.getLast?_map]
  rcases hlast : l.getLast? with _ | c <;> rw [hlast] at h
  · simp
  · simpa [pyLowerChar_eq_dot] using h

theorem validate_email_format_ok_iff {e r : String} :
    validate_email_format e = .ok r ↔
      (e ≠ "" ∧ e.length ≤ 255 ∧ emailRegexMatch e = true ∧ hasDoubleDot e.data = false ∧
        headIsDot e.data = false ∧ lastIsDot e.data = false ∧ r = pyLower e) := by
  unfold validate_email_format
  split_ifs with h1 h2 h3 h4
  · simp [h1]
  · constructor
    · intro hc
      simp at hc
    · rintro ⟨-, hlen, -⟩
      omega
  · constructor
    · intro hc
      simp at hc
    · rintro ⟨-, -, hreg, -⟩
      have h3f : emailRegexMatch e = false := by
        revert h3
        cases emailRegexMatch e <;> simp
      rw [h3f] at hreg
      exact Bool.false_ne_true hreg
  · constructor
    · intro hc
      simp at hc
    · rintro ⟨-, -, -, hdd, hhd, hld, -⟩
      rw [hdd, hhd, hld] at h4
      simp at h4
  · have h3t : emailRegexMatch e = true := by
      revert h3
      cases emailRegexMatch e <;> simp
    have hdd : hasDoubleDot e.data = false := by
      revert h4
      cases hasDoubleDot e.data <;> simp
    have hhd : headIsDot e.data = false := by
      revert h4
      cases headIsDot e.data <;> simp
    have hld : lastIsDot e.data = false := by
      revert h4
      cases lastIsDot e.data <;> simp
    constructor
    · intro hc
      simp only [Except.ok.injEq] at hc
      exact ⟨h1, by omega, h3t, hdd, hhd, hld, hc.symm⟩
    · rintro ⟨-, -, -, -, -, -, hr⟩
      rw [hr]

theorem validate_email_format_isOk_iff {e : String} :
    (validate_email_format e).isOk = true ↔
      (e ≠ "" ∧ e.length ≤ 255 ∧ emailRegexMatch e = true ∧ hasDoubleDot e.data = false ∧
        headIsDot e.data = false ∧ lastIsDot e.data = false) := by
  constructor
  · intro h
    rcases hv : validate_email_format e with m | r <;> rw [hv] at h
    · simp [Except.isOk, Except.toBool] at h
    · obtain ⟨c1, c2, c3, c4, c5, c6, -⟩ := validate_email_format_ok_iff.mp hv
      exact ⟨c1, c2, c3, c4, c5, c6⟩
  · intro hc
    have hok : validate_email_format e = .ok (pyLower e) :=
      validate_email_format_ok_iff.mpr
        ⟨hc.1, hc.2.1, hc.2.2.1, hc.2.2.2.1, hc.2.2.2.2.1, hc.2.2.2.2.2, rfl⟩
    rw [hok]
    rfl

theorem dropWhile_head?_not {p : Char → Bool} {l : List Char} {a : Char}
    (h : (l.dropWhile p).head? = some a) : p a = false := by
  induction l with
  | nil => simp [List.dropWhile] at h
  | cons b t ih =>
    rw [List.dropWhile_cons] at h
    by_cases hb : p b = true
    · rw [if_pos hb] at h
      exact ih h
    · rw [if_neg hb] at h
      simp only [List.head?_cons, Option.some.injEq] at h
      rw [← h]
      exact Bool.not_eq_true _ ▸ (Bool.eq_false_iff.mpr hb)

theorem pyStrip_length_le (s : String) : (pyStrip s).length ≤ s.length := by
  unfold pyStrip String.length
  simp only [List.length_reverse]
  calc ((s.data.dropWhile isPySpace).reverse.dropWhile isPySpace).length
      ≤ (s.data.dropWhile isPySpace).reverse.length :=
        ((List.dropWhile_suffix isPySpace).sublist).length_le
    _ = (s.data.dropWhile isPySpace).length := List.length_reverse _
    _ ≤ s.data.length := ((List.dropWhile_suffix isPySpace).sublist).length_le

theorem pyStrip_idem (s : String) : pyStrip (pyStrip s) = pyStrip s := by
  unfold pyStrip
  apply congrArg String.mk
  dsimp only
  set A := s.data.dropWhile isPySpace with hA
  set B := A.reverse.dropWhile isPySpace with hB
  have step1 : B.reverse.dropWhile isPySpace = B.reverse := by
    rcases hhead : B.reverse.head? with _ | a
    · rw [List.head?_eq_none_iff] at hhead
      rw [hhead]
      rfl
    · have hBne : B ≠ [] := by
        intro hnil
        rw [hnil] at hhead
        simp at hhead
      have hlastB : B.getLast? = some a := by
        rw [← List.head?_reverse]
        exact hhead
      obtain ⟨pre, hpre⟩ := List.dropWhile_suffix (l := A.reverse) isPySpace
      have hlastA : A.reverse.getLast? = some a := by
        rw [← hpre, List.getLast?_append_of_ne_nil _ hBne]
        exact hlastB
      have hheadA : A.head? = some a := by
        rw [← List.getLast?_reverse]
        exact hlastA
      have hpa : isPySpace a = false := by
        apply dropWhile_head?_not (p := isPySpace) (l := s.data)
        rw [← hA]
        exact hheadA
      rcases hBr : B.reverse with _ | ⟨x, xs⟩
      · rfl
      · rw [hBr] at hhead
        simp only [List.head?_cons, Option.some.injEq] at hhead
        subst hhead
        exact List.dropWhile_cons_of_neg (by simp [hpa])
  rw [step1, List.reverse_reverse, hB, List.dropWhile_idempotent]

theorem except_bind_error {α β : Type} (m : String) (f : α → Except String β) :
    (Except.error m >>= f) = Except.error m := rfl

theorem except_bind_ok {α β : Type} (a : α) (f : α → Except String β) :
    (Except.ok a >>= f) = f a := rfl

theorem any_truthy_of_getVal {values : Payload} {k s : String}
    (hk : getVal values k = some (.str s)) (hs : s ≠ "") :
    (values.any fun p => p.2.truthy) = true := by
  unfold getVal at hk
  rcases hf : values.find? (fun p => p.1 = k) with _ | p <;> rw [hf] at hk
  · simp at hk
  · simp only [Option.map_some', Option.some.injEq] at hk
    rw [List.any_eq_true]
    refine ⟨p, List.mem_of_find?_eq_some hf, ?_⟩
    rw [hk]
    simp [PyVal.truthy, hs]

theorem getVal_setVal_self {values : Payload} {k : String} {v w : PyVal}
    (h : getVal values k = some w) :
    getVal (setVal values k v) k = some v := by
  induction values with
  | nil => simp [getVal] at h
  | cons p rest ih =>
    unfold getVal at h
    unfold getVal setVal
    simp only [List.map_cons]
    by_cases hp : p.1 = k
    · rw [if_pos hp, List.find?_cons_of_pos _ (by simp [hp])]
      simp
    · rw [if_neg hp, List.find?_cons_of_neg _ (by simp [hp])]
      rw [List.find?_cons_of_neg _ (by simp [hp])] at h
      exact ih h

theorem picStep_ok_eq {v w : Payload} (h : picStep v = .ok w) : w = v := by
  unfold picStep at h
  split at h
  · split_ifs at h
    · rcases hv : validate_profile_picture_url (some _) with m | x <;> rw [hv] at h <;>
        simp [Except.map] at h
      exact h.symm
    · simp at h
      exact h.symm
  · simp at h
    exact h.symm

theorem bioStep_ok_eq {v w : Payload} (h : bioStep v = .ok w) : w = v := by
  unfold bioStep at h
  split at h
  · split_ifs at h
    · rcases hv : validate_bio_length (some _) with m | x <;> rw [hv] at h <;>
        simp [Except.map] at h
      exact h.symm
    · simp at h
      exact h.symm
  · simp at h
    exact h.symm

theorem roleStep_ok_eq {v w : Payload} (h : roleStep v = .ok w) : w = v := by
  unfold roleStep at h
  split at h
  · split_ifs at h <;> simp at h <;> exact h.symm
  · simp at h
    exact h.symm

theorem emailStep_of_present {values : Payload} {s : String}
    (hk : getVal values "email" = some (.str s)) (hs : s ≠ "") :
    emailStep values =
      (validate_email_format s).map (fun r => setVal values "email" (.str r)) := by
  unfold emailStep
  rw [hk]
  dsimp only
  rw [if_pos hs]

theorem check_update_fields_of_any {values : Payload}
    (hany : (values.any fun p => p.2.truthy) = true) :
    check_update_fields values =
      emailStep values >>= fun v1 =>
        picStep v1 >>= fun v2 => bioStep v2 >>= fun v3 => roleStep v3 := by
  unfold check_update_fields
  rw [hany]
  rfl

theorem validate_email_format_error_msg {e m : String}
    (h : validate_email_format e = .error m) :
    m ≠ "At least one field must be provided for update" := by
  unfold validate_email_format at h
  split_ifs at h <;> simp at h <;> (rw [← h]; decide)

theorem validate_profile_picture_url_error_msg {u m : String}
    (h : validate_profile_picture_url (some u) = .error m) :
    m ≠ "At least one field must be provided for update" := by
  unfold validate_profile_picture_url at h
  dsimp only at h
  split_ifs at h <;> simp at h <;> (rw [← h]; decide)

theorem validate_bio_length_error_msg {b m : String}
    (h : validate_bio_length (some b) = .error m) :
    m ≠ "At least one field must be provided for update" := by
  unfold validate_bio_length at h
  dsimp only at h
  split_ifs at h <;> simp at h
  rw [← h]
  decide

theorem emailStep_error_msg {v : Payload} {m : String} (h : emailStep v = .error m) :
    m ≠ "At least one field must be provided for update" := by
  unfold emailStep at h
  split at h
  · split_ifs at h
    rcases hv : validate_email_format _ with m2 | r <;> rw [hv] at h <;>
      simp [Except.map] at h
    rw [← h]
    exact validate_email_format_error_msg hv
  · simp at h

theorem picStep_error_msg {v : Payload} {m : String} (h : picStep v = .error m) :
    m ≠ "At least one field must be provided for update" := by
  unfold picStep at h
  split at h
  · split_ifs at h
    rcases hv : validate_profile_picture_url (some _) with m2 | x <;> rw [hv] at h <;>
      simp [Except.map] at h
    rw [← h]
    exact validate_profile_picture_url_error_msg hv
  · simp at h

theorem bioStep_error_msg {v : Payload} {m : String} (h : bioStep v = .error m) :
    m ≠ "At least one field must be provided for update" := by
  unfold bioStep at h
  split at h
  · split_ifs at h
    rcases hv : validate_bio_length (some _) with m2 | x <;> rw [hv] at h <;>
      simp [Except.map] at h
    rw [← h]
    exact validate_bio_length_error_msg hv
  · simp at h

theorem roleStep_error_msg {v : Payload} {m : String} (h : roleStep v = .error m) :
    m ≠ "At least one field must be provided for update" := by
  unfold roleStep at h
  split at h
  · split_ifs at h
    simp at h
    rw [← h]
    decide
  · simp at h


/-- C1: `validate_role_transition` returns true exactly on the three
one-step promotions ANONYMOUS→AUTHENTICATED, AUTHENTICATED→MANAGER,
MANAGER→ADMIN; every self-transition, tier-skipping promotion, demotion,
and transition out of ADMIN returns false. -/
theorem role_transition_characterization :
    ∀ c n : UserRole,
      validate_role_transition c n = true ↔
        ((c = .ANONYMOUS ∧ n = .AUTHENTICATED) ∨
         (c = .AUTHENTICATED ∧ n = .MANAGER) ∨
         (c = .MANAGER ∧ n = .ADMIN)) := by
  decide

/-- C4: `validate_password` accepts exactly the passwords of length in
[8,100] containing an uppercase letter, a lowercase letter, a digit and a
special character, returning them unchanged; the checks run in order
minimum-length, maximum-length, uppercase, lowercase, digit, special, each
failure with its own message, so "short1!" gets the length message and
"NoSpecial123" the missing-special-character message. -/
theorem password_characterization :
    (∀ p : String,
      ((validate_password p).isOk = true ↔
        (8 ≤ p.length ∧ p.length ≤ 100 ∧ p.data.any Char.isUpper = true ∧
          p.data.any Char.isLower = true ∧ p.data.any Char.isDigit = true ∧
          p.data.any (fun c => specialChars.contains c) = true)) ∧
      (validate_password p = .ok p ↔
        (8 ≤ p.length ∧ p.length ≤ 100 ∧ p.data.any Char.isUpper = true ∧
          p.data.any Char.isLower = true ∧ p.data.any Char.isDigit = true ∧
          p.data.any (fun c => specialChars.contains c) = true)) ∧
      (validate_password p = .error "Password must be at least 8 characters long" ↔
        p.length < 8) ∧
      (validate_password p = .error "Password must be at most 100 characters long" ↔
        (8 ≤ p.length ∧ 100 < p.length)) ∧
      (validate_password p = .error "Password must contain at least one uppercase letter" ↔
        (8 ≤ p.length ∧ p.length ≤ 100 ∧ p.data.any Char.isUpper = false)) ∧
      (validate_password p = .error "Password must contain at least one lowercase letter" ↔
        (8 ≤ p.length ∧ p.length ≤ 100 ∧ p.data.any Char.isUpper = true ∧
          p.data.any Char.isLower = false)) ∧
      (validate_password p = .error "Password must contain at least one number" ↔
        (8 ≤ p.length ∧ p.length ≤ 100 ∧ p.data.any Char.isUpper = true ∧
          p.data.any Char.isLower = true ∧ p.data.any Char.isDigit = false)) ∧
      (validate_password p = .error "Password must contain at least one special character" ↔
        (8 ≤ p.length ∧ p.length ≤ 100 ∧ p.data.any Char.isUpper = true ∧
          p.data.any Char.isLower = true ∧ p.data.any Char.isDigit = true ∧
          p.data.any (fun c => specialChars.contains c) = false))) ∧
    validate_password "short1!" = .error "Password must be at least 8 characters long" ∧
    validate_password "NoSpecial123" =
      .error "Password must contain at least one special character" ∧
    validate_password "SecureP@ss123" = .ok "SecureP@ss123" := by
  refine ⟨fun p => ?_, rfl, rfl, rfl⟩
  unfold validate_password
  split_ifs <;> simp_all [Except.isOk, Except.toBool]

/-- C5: for every present nickname the validator checks, in order: length
in [3,30], first character alphanumeric, no '--' or '__' substring, full
match of `^[a-zA-Z0-9][a-zA-Z0-9_-]*$`, failing fast with that rule's
message ("_invalid" gets the must-start-with-a-letter-or-number message,
"test__user" the consecutive-separators message), and returns every
accepted nickname unchanged (e.g. "john_doe123"). -/
theorem nickname_characterization :
    (∀ s : String,
      ((UserBase.validate_nickname (some s)).isOk = true ↔
        (3 ≤ s.length ∧ s.length ≤ 30 ∧ firstIsAlnum s.data = true ∧
          hasConsecSep s.data = false ∧ nicknameRegexMatch s = true)) ∧
      (UserBase.validate_nickname (some s) = .ok (some s) ↔
        (3 ≤ s.length ∧ s.length ≤ 30 ∧ firstIsAlnum s.data = true ∧
          hasConsecSep s.data = false ∧ nicknameRegexMatch s = true)) ∧
      (UserBase.validate_nickname (some s) =
          .error "Nickname must be at least 3 characters long" ↔ s.length < 3) ∧
      (UserBase.validate_nickname (some s) =
          .error "Nickname must be at most 30 characters long" ↔ 30 < s.length) ∧
      (UserBase.validate_nickname (some s) =
          .error "Nickname must start with a letter or number" ↔
        (3 ≤ s.length ∧ s.length ≤ 30 ∧ firstIsAlnum s.data = false)) ∧
      (UserBase.validate_nickname (some s) =
          .error "Nickname cannot contain consecutive hyphens or underscores" ↔
        (3 ≤ s.length ∧ s.length ≤ 30 ∧ firstIsAlnum s.data = true ∧
          hasConsecSep s.data = true)) ∧
      (UserBase.validate_nickname (some s) =
          .error "Nickname can only contain letters, numbers, underscores, and hyphens" ↔
        (3 ≤ s.length ∧ s.length ≤ 30 ∧ firstIsAlnum s.data = true ∧
          hasConsecSep s.data = false ∧ nicknameRegexMatch s = false))) ∧
    UserBase.validate_nickname (some "_invalid") =
      .error "Nickname must start with a letter or number" ∧
    UserBase.validate_nickname (some "test__user") =
      .error "Nickname cannot contain consecutive hyphens or underscores" ∧
    UserBase.validate_nickname (some "john_doe123") = .ok (some "john_doe123") := by
  refine ⟨fun s => ?_, rfl, rfl, rfl⟩
  unfold UserBase.validate_nickname
  dsimp only
  split_ifs <;> simp_all [Except.isOk, Except.toBool] <;> omega

/-- C6: for every present profile_picture_url, validation fails with the
invalid-URL-format message when the URL regex does not match; when it
matches, the value is accepted unchanged iff it ends (case-insensitively)
in .jpg, .jpeg, .png or .gif, and otherwise fails with the distinct
wrong-file-type message. -/
theorem profile_picture_url_characterization :
    ∀ u : String,
      (validate_profile_picture_url (some u) = .error "Invalid URL format" ↔
        urlRegexMatch u = false) ∧
      ((validate_profile_picture_url (some u)).isOk = true ↔
        (urlRegexMatch u = true ∧ picExtensionOk u = true)) ∧
      (validate_profile_picture_url (some u) = .ok (some u) ↔
        (urlRegexMatch u = true ∧ picExtensionOk u = true)) ∧
      (validate_profile_picture_url (some u) =
          .error "Profile picture URL must end with .jpg, .jpeg, .png, or .gif" ↔
        (urlRegexMatch u = true ∧ picExtensionOk u = false)) := by
  intro u
  unfold validate_profile_picture_url
  dsimp only
  split_ifs <;> simp_all [Except.isOk, Except.toBool]

set_option maxRecDepth 4000 in
/-- C7: for every present bio, `validate_bio_length` fails exactly when
the untrimmed length exceeds 500 (exactly 500 succeeds, 501 fails), and
every accepted bio is returned with surrounding whitespace stripped
("  Bio with spaces  " normalizes to "Bio with spaces"). -/
theorem bio_length_characterization :
    (∀ b : String,
      (validate_bio_length (some b) = .error "Bio must be at most 500 characters long" ↔
        500 < b.length) ∧
      ((validate_bio_length (some b)).isOk = true ↔ b.length ≤ 500) ∧
      (validate_bio_length (some b) = .ok (some (pyStrip b)) ↔ b.length ≤ 500)) ∧
    validate_bio_length (some ⟨List.replicate 500 'a'⟩) =
      .ok (some ⟨List.replicate 500 'a'⟩) ∧
    (validate_bio_length (some ⟨List.replicate 501 'a'⟩)).isOk = false ∧
    validate_bio_length (some "  Bio with spaces  ") = .ok (some "Bio with spaces") := by
  refine ⟨fun b => ?_, by rfl, by rfl, by rfl⟩
  unfold validate_bio_length
  dsimp only
  split_ifs <;> simp_all [Except.isOk, Except.toBool] <;> omega

/-- C2: `validate_email_format` succeeds exactly on nonempty strings of
length ≤ 255 that match the email regex (with `$` semantics of `re.match`)
and contain no '..' and neither start nor end with '.', returning the
input lower-cased; and the `UserUpdate` pre-pass substitutes this
normalized result back into the payload whenever email is present and
non-empty. -/
theorem email_format_characterization :
    (∀ e r : String,
      validate_email_format e = .ok r ↔
        (e ≠ "" ∧ e.length ≤ 255 ∧ emailRegexMatch e = true ∧
          hasDoubleDot e.data = false ∧ headIsDot e.data = false ∧
          lastIsDot e.data = false ∧ r = pyLower e)) ∧
    (∀ (values out : Payload) (s : String),
      getVal values "email" = some (.str s) → s ≠ "" →
      check_update_fields values = .ok out →
      ∃ r, validate_email_format s = .ok r ∧ getVal out "email" = some (.str r)) := by
  refine ⟨fun e r => validate_email_format_ok_iff, fun values out s hk hs hok => ?_⟩
  have hany := any_truthy_of_getVal hk hs
  rw [check_update_fields_of_any hany, emailStep_of_present hk hs] at hok
  rcases hv : validate_email_format s with m | r <;> rw [hv] at hok
  · simp only [Except.map, except_bind_error] at hok
    exact absurd hok (by simp)
  · simp only [Except.map, except_bind_ok] at hok
    rcases h2 : picStep (setVal values "email" (.str r)) with m2 | v2 <;> rw [h2] at hok
    · rw [except_bind_error] at hok
      exact absurd hok (by simp)
    · have hv2 := picStep_ok_eq h2
      rw [except_bind_ok] at hok
      rcases h3 : bioStep v2 with m3 | v3 <;> rw [h3] at hok
      · rw [except_bind_error] at hok
        exact absurd hok (by simp)
      · have hv3 := bioStep_ok_eq h3
        rw [except_bind_ok] at hok
        have hout := roleStep_ok_eq hok
        refine ⟨r, rfl, ?_⟩
        rw [hout, hv3, hv2]
        exact getVal_setVal_self hk

/-- Witness for C2: the pre-pass on a payload whose email is
"User.Name@Example.COM" normalizes it to "user.name@example.com". -/
theorem email_format_characterization_witness :
    ∃ r, validate_email_format "User.Name@Example.COM" = .ok r ∧
      getVal [("email", PyVal.str "user.name@example.com")] "email" =
        some (.str r) :=
  email_format_characterization.2
    [("email", PyVal.str "User.Name@Example.COM")]
    [("email", PyVal.str "user.name@example.com")]
    "User.Name@Example.COM" rfl (by decide) rfl

/-- C3: constructing a `UserUpdate` fails with the at-least-one-field
message exactly when every value in the raw payload is falsy (absent,
`None`, or the empty string); the empty payload fails, and a payload with
bio="x" passes this check. -/
theorem update_requires_one_field :
    (∀ values : Payload,
      (check_update_fields values =
          .error "At least one field must be provided for update" ↔
        (values.any fun p => p.2.truthy) = false)) ∧
    check_update_fields [] =
      .error "At least one field must be provided for update" ∧
    (check_update_fields [("bio", PyVal.str "x")]).isOk = true := by
  refine ⟨fun values => ?_, rfl, rfl⟩
  constructor
  · intro h
    by_contra hany
    have hany' : (values.any fun p => p.2.truthy) = true := by
      revert hany
      cases values.any fun p => p.2.truthy <;> simp
    rw [check_update_fields_of_any hany'] at h
    rcases h1 : emailStep values with m1 | v1 <;> rw [h1] at h
    · rw [except_bind_error] at h
      simp only [Except.error.injEq] at h
      exact emailStep_error_msg h1 h
    · rw [except_bind_ok] at h
      rcases h2 : picStep v1 with m2 | v2 <;> rw [h2] at h
      · rw [except_bind_error] at h
        simp only [Except.error.injEq] at h
        exact picStep_error_msg h2 h
      · rw [except_bind_ok] at h
        rcases h3 : bioStep v2 with m3 | v3 <;> rw [h3] at h
        · rw [except_bind_error] at h
          simp only [Except.error.injEq] at h
          exact bioStep_error_msg h3 h
        · rw [except_bind_ok] at h
          exact roleStep_error_msg h rfl
  · intro hfalse
    unfold check_update_fields
    rw [hfalse]
    rfl

/-- C10: the at-least-one-field pre-pass counts every truthy value in the
raw payload, including keys that are not declared `UserUpdate` fields: a
payload whose only entry is the undeclared key "is_admin" (truthy value)
passes the pre-pass although every declared field is absent. -/
theorem update_prepass_counts_undeclared_keys :
    userUpdateFields.contains "is_admin" = false ∧
    PyVal.truthy (PyVal.str "yes") = true ∧
    (userUpdateFields.all fun k =>
      (getVal [("is_admin", PyVal.str "yes")] k).isNone) = true ∧
    check_update_fields [("is_admin", PyVal.str "yes")] =
      .ok [("is_admin", PyVal.str "yes")] := by
  refine ⟨by decide, by decide, by decide, rfl⟩

/-- C8 counterexample: `UserListResponse` construction succeeds even when
page < 1 and when the items list is longer than size, contradicting the
claim that such constructions fail. -/
theorem user_list_response_invariant_counterexample :
    (mkUserListResponse [] 0 0 10).isOk = true ∧ (0 : Int) < 1 ∧
    (mkUserListResponse [sampleUser] 1 1 0).isOk = true ∧
    ((0 : Int) < ([sampleUser].length : Int)) := by
  refine ⟨rfl, by decide, rfl, by decide⟩

/-- C8 (amended): `UserListResponse` declares items/total/page/size with
no validators, so construction succeeds for every combination of typed
field values; the invariant 0 ≤ items.length ≤ size, page ≥ 1 is not
enforced by the schema layer. -/
theorem user_list_response_no_validation :
    ∀ (items : List UserResponse) (total page size : Int),
      mkUserListResponse items total page size = .ok ⟨items, total, page, size⟩ :=
  fun _ _ _ _ => rfl

/-- C9: normalization is idempotent: re-validating the result of a
successful `validate_email_format` or `validate_bio_length` succeeds and
returns the same value. -/
theorem normalization_idempotent :
    (∀ e r : String, validate_email_format e = .ok r →
      validate_email_format r = .ok r) ∧
    (∀ (b : String) (rb : Option String),
      validate_bio_length (some b) = .ok rb → validate_bio_length rb = .ok rb) := by
  constructor
  · intro e r h
    obtain ⟨hne, hlen, hregex, hdd, hhd, hld, hr⟩ := validate_email_format_ok_iff.mp h
    subst hr
    apply validate_email_format_ok_iff.mpr
    have hdata : (pyLower e).data = e.data.map pyLowerChar := rfl
    refine ⟨?_, ?_, emailRegexMatch_pyLower hregex, ?_, ?_, ?_, (pyLower_idem e).symm⟩
    · intro hempty
      apply hne
      have hnil : (pyLower e).data = [] := by rw [hempty]
      rw [hdata] at hnil
      have hed : e.data = [] := List.map_eq_nil.mp hnil
      cases e
      simp only at hed
      rw [hed]
    · have hlen2 : (pyLower e).length = e.length := by
        show (e.data.map pyLowerChar).length = e.data.length
        exact List.length_map _ _
      omega
    · rw [hdata]
      exact hasDoubleDot_map hdd
    · rw [hdata]
      exact headIsDot_map hhd
    · rw [hdata]
      exact lastIsDot_map hld
  · intro b rb h
    unfold validate_bio_length at h
    dsimp only at h
    split_ifs at h with hlen
    simp only [Except.ok.injEq] at h
    rw [← h]
    unfold validate_bio_length
    dsimp only
    have hle : (pyStrip b).length ≤ 500 := by
      have := pyStrip_length_le b
      omega
    rw [if_neg (by omega)]
    rw [pyStrip_idem]

/-- Witness for C9: idempotence at a concrete email and bio. -/
theorem normalization_idempotent_witness :
    validate_email_format "user.name@example.com" = .ok "user.name@example.com" ∧
    validate_bio_length (some "Bio with spaces") = .ok (some "Bio with spaces") :=
  ⟨normalization_idempotent.1 "User.Name@Example.COM" "user.name@example.com" rfl,
   normalization_idempotent.2 "  Bio with spaces  " (some "Bio with spaces") rfl⟩


end UserSchemas
